import Mathlib

/-!
Verification of the badminton court booking system core
(`booking/models.py`, `booking/services/{pricing,availability,waitlist}.py`,
`booking/views.py`) against its natural-language specification.

Shallow embedding conventions:
* `Decimal` money values become `Rat` (Decimal arithmetic on the values the
  code manipulates is exact).
* dates are day numbers (`Nat`); `date.weekday()` becomes `date % 7`
  (0 = Monday, as in Python).
* times of day are `Nat` (the code only compares them with `<`, `≤`).
* the database is an explicit record of row lists; a Django queryset
  `ORDER BY k` is modelled as a stable sort (`List.insertionSort`) by `k`;
  Python exceptions are modelled with `Option`/explicit error outcomes.
-/

/-- `booking.models.Court`: id, name, type `INDOOR`/`OUTDOOR`, active flag. -/
structure Court where
  id : Nat
  name : String
  court_type : String
  is_active : Bool
deriving Repr, DecidableEq

/-- `booking.models.Equipment`: rental pool with a total quantity. -/
structure Equipment where
  id : Nat
  name : String
  equipment_type : String
  total_quantity : Nat
deriving Repr, DecidableEq

/-- `booking.models.Coach`: id, name, hourly fee, active flag. -/
structure Coach where
  id : Nat
  name : String
  hourly_fee : Rat
  is_active : Bool
deriving Repr, DecidableEq

/-- `booking.models.CoachAvailability`: weekly availability window of a coach. -/
structure CoachAvailability where
  coach_id : Nat
  day_of_week : Nat
  start_time : Nat
  end_time : Nat
deriving Repr, DecidableEq

/-- `booking.models.PricingRule`.  `applies_to_days` keeps the source's
comma-separated string encoding; `start_time`/`end_time` are nullable. -/
structure PricingRule where
  name : String
  rule_type : String
  multiplier : Rat
  flat_fee : Rat
  is_percentage : Bool
  is_enabled : Bool
  priority : Int
  start_time : Option Nat
  end_time : Option Nat
  applies_to_days : String
deriving Repr, DecidableEq

/-- `booking.models.Booking`: a court reservation row. -/
structure Booking where
  id : Nat
  user_id : Nat
  court_id : Nat
  date : Nat
  start_time : Nat
  end_time : Nat
  coach_id : Option Nat
  base_price : Rat
  total_price : Rat
  status : String
deriving Repr, DecidableEq

/-- `booking.models.BookingEquipment`: equipment line item of a booking.
The requested quantity is kept as `Int` so that the behaviour of the code on
non-positive requests can be stated. -/
structure BookingEquipment where
  booking_id : Nat
  equipment_id : Nat
  quantity : Int
deriving Repr, DecidableEq

/-- `booking.models.Waitlist`: one waitlist row. -/
structure WaitlistEntry where
  id : Nat
  user_id : Nat
  court_id : Nat
  date : Nat
  start_time : Nat
  end_time : Nat
  status : String
  created_at : Nat
  notified_at : Option Nat
deriving Repr, DecidableEq

/-- The persisted state the services read and write, plus the id/clock
generators the ORM supplies (`id` autoincrement, `timezone.now()`). -/
structure DB where
  courts : List Court
  equipments : List Equipment
  coaches : List Coach
  coach_avail : List CoachAvailability
  rules : List PricingRule
  bookings : List Booking
  booking_equipment : List BookingEquipment
  waitlist : List WaitlistEntry
  next_booking_id : Nat
  next_waitlist_id : Nat
  now : Nat
deriving Repr, DecidableEq

/-- `PricingEngine._time_overlaps(start1, end1, start2, end2)`:
`start1 < end2 and end1 > start2`. -/
def time_overlaps (start1 end1 start2 end2 : Nat) : Bool :=
  start1 < end2 && end1 > start2

/-- `PricingEngine.BASE_COURT_PRICE = Decimal('500.00')`. -/
def BASE_COURT_PRICE : Rat := 500

/-- One entry of the price breakdown list built by
`PricingEngine.calculate_price`.  The base entry carries no
`is_percentage`/`multiplier` keys, hence the `Option`s. -/
structure BreakdownItem where
  rule : String
  rtype : String
  amount : Rat
  is_percentage : Option Bool
  multiplier : Option Rat
deriving Repr, DecidableEq

/-- Result dict of `PricingEngine.calculate_price`. -/
structure PriceResult where
  total_price : Rat
  base_price : Rat
  breakdown : List BreakdownItem
deriving Repr, DecidableEq

/-- The list comprehension in the `WEEKEND` branch:
`[int(d.strip()) for d in rule.applies_to_days.split(',') if d.strip()]`
(entries that are not numerals are dropped where Python would raise;
no claim depends on malformed day strings). -/
def parseDays (s : String) : List Nat :=
  (s.split (fun c => c == ',')).filterMap (fun d => d.trim.toNat?)

/-- The applicability test of the `for rule in pricing_rules` loop body
(`pricing.py` lines 43–74): decides `applied` for one rule. -/
def ruleApplied (rule : PricingRule) (court : Court) (day_of_week : Nat)
    (start_time end_time : Nat) (equipment_list : List Equipment)
    (coach : Option Coach) : Bool :=
  if rule.rule_type == "PEAK_HOURS" then
    match rule.start_time, rule.end_time with
    | some rs, some re => time_overlaps start_time end_time rs re
    | _, _ => false
  else if rule.rule_type == "WEEKEND" then
    if rule.applies_to_days ≠ "" then
      (parseDays rule.applies_to_days).contains day_of_week
    else false
  else if rule.rule_type == "INDOOR_PREMIUM" then
    court.court_type == "INDOOR"
  else if rule.rule_type == "EQUIPMENT_FEE" then
    !equipment_list.isEmpty
  else if rule.rule_type == "COACH_FEE" then
    coach.isSome
  else false

/-- The amount one applied rule adds (`pricing.py` lines 77–96): percentage
rules add `current_price * (multiplier - 1)`; flat `EQUIPMENT_FEE` adds
`flat_fee * len(equipment_list)`; flat `COACH_FEE` adds `coach.hourly_fee`
(the branch is only reached with a coach present, so `none` is mapped to 0);
any other flat rule adds `flat_fee`. -/
def ruleDelta (rule : PricingRule) (current_price : Rat)
    (equipment_list : List Equipment) (coach : Option Coach) : Rat :=
  if rule.is_percentage then
    current_price * (rule.multiplier - 1)
  else if rule.rule_type == "EQUIPMENT_FEE" then
    rule.flat_fee * equipment_list.length
  else if rule.rule_type == "COACH_FEE" then
    match coach with
    | some c => c.hourly_fee
    | none => 0
  else
    rule.flat_fee

/-- One iteration of the rule loop: threads `(current_price, breakdown)`
through a rule, appending the rule's breakdown dict when it applied. -/
def applyRule (court : Court) (day_of_week start_time end_time : Nat)
    (equipment_list : List Equipment) (coach : Option Coach)
    (acc : Rat × List BreakdownItem) (rule : PricingRule) :
    Rat × List BreakdownItem :=
  if ruleApplied rule court day_of_week start_time end_time equipment_list coach then
    let amount := ruleDelta rule acc.1 equipment_list coach
    (acc.1 + amount,
     acc.2 ++ [⟨rule.name, rule.rule_type, amount, some rule.is_percentage,
               if rule.is_percentage then some rule.multiplier else none⟩])
  else
    acc

/-- Sort key of `order_by('priority')`: comparison by `priority` alone. -/
def priorityLE (a b : PricingRule) : Prop :=
  a.priority ≤ b.priority

instance : DecidableRel priorityLE :=
  fun a b => inferInstanceAs (Decidable (a.priority ≤ b.priority))

instance : IsTotal PricingRule priorityLE :=
  ⟨fun a b => Int.le_total a.priority b.priority⟩

instance : IsTrans PricingRule priorityLE :=
  ⟨fun _ _ _ h1 h2 => le_trans h1 h2⟩

/-- `PricingRule.objects.filter(is_enabled=True).order_by('priority')`
(`pricing.py` line 39): the enabled rules, stably sorted by `priority`
alone — the explicit `order_by` replaces the model's default
`ordering = ['priority', 'name']`. -/
def orderedEnabledRules (rules : List PricingRule) : List PricingRule :=
  (rules.filter (fun r => r.is_enabled)).insertionSort priorityLE

/-- `PricingEngine.calculate_price`: seeds price with `BASE_COURT_PRICE` and
the base breakdown entry, then folds the ordered enabled rules. -/
def calculate_price (rules : List PricingRule) (court : Court)
    (date start_time end_time : Nat) (equipment_list : List Equipment)
    (coach : Option Coach) : PriceResult :=
  let day_of_week := date % 7
  let start : Rat × List BreakdownItem :=
    (BASE_COURT_PRICE, [⟨"Base Court Price", "base", BASE_COURT_PRICE, none, none⟩])
  let res := (orderedEnabledRules rules).foldl
    (applyRule court day_of_week start_time end_time equipment_list coach) start
  ⟨res.1, BASE_COURT_PRICE, res.2⟩

/-- Sum of the `amount` fields of a breakdown list. -/
def sumAmounts (breakdown : List BreakdownItem) : Rat :=
  (breakdown.map (fun b => b.amount)).sum

/-- `AvailabilityService.check_court_available`: no CONFIRMED booking on the
court overlaps the window (optionally excluding one booking id). -/
def check_court_available (db : DB) (court_id date start_time end_time : Nat)
    (exclude_booking_id : Option Nat) : Bool :=
  !(db.bookings.any (fun b =>
    b.court_id == court_id && b.date == date && b.start_time < end_time &&
    b.end_time > start_time && b.status == "CONFIRMED" &&
    !(exclude_booking_id.elim false (fun i => b.id == i))))

/-- `AvailabilityService.check_coach_available`: some weekly availability
window of the coach on `date.weekday()` contains the requested window, and
no overlapping CONFIRMED booking has the coach.  Note: the coach's
`is_active` flag is never consulted. -/
def check_coach_available (db : DB) (coach_id date start_time end_time : Nat)
    (exclude_booking_id : Option Nat) : Bool :=
  let day_of_week := date % 7
  let has_availability := db.coach_avail.any (fun a =>
    a.coach_id == coach_id && a.day_of_week == day_of_week &&
    a.start_time ≤ start_time && a.end_time ≥ end_time)
  if !has_availability then false
  else
    !(db.bookings.any (fun b =>
      b.coach_id == some coach_id && b.date == date && b.start_time < end_time &&
      b.end_time > start_time && b.status == "CONFIRMED" &&
      !(exclude_booking_id.elim false (fun i => b.id == i))))

/-- `AvailabilityService.get_available_coaches`: coaches with a containing
availability window on the weekday whose related coach row is active
(`coach__is_active=True`), minus coaches with an overlapping CONFIRMED
booking. -/
def get_available_coaches (db : DB) (date start_time end_time : Nat) :
    List Coach :=
  let day_of_week := date % 7
  let available_coach_ids := (db.coach_avail.filter (fun a =>
    a.day_of_week == day_of_week && a.start_time ≤ start_time &&
    a.end_time ≥ end_time &&
    ((db.coaches.find? (fun c => c.id == a.coach_id)).elim false
      (fun c => c.is_active)))).map (fun a => a.coach_id)
  let booked_coach_ids := (db.bookings.filter (fun b =>
    b.date == date && b.start_time < end_time && b.end_time > start_time &&
    b.status == "CONFIRMED" && b.coach_id.isSome)).filterMap (fun b => b.coach_id)
  db.coaches.filter (fun c =>
    available_coach_ids.contains c.id && !booked_coach_ids.contains c.id)

/-- The aggregate of `check_equipment_available`: summed quantities of the
equipment's line items whose booking overlaps the window and is CONFIRMED
(optionally excluding one booking id). -/
def bookedQuantity (db : DB) (equipment_id : Nat)
    (date start_time end_time : Nat) (exclude_booking_id : Option Nat) : Int :=
  ((db.booking_equipment.filter (fun be =>
    be.equipment_id == equipment_id &&
    (db.bookings.any (fun b =>
      b.id == be.booking_id && b.date == date && b.start_time < end_time &&
      b.end_time > start_time && b.status == "CONFIRMED")) &&
    !(exclude_booking_id.elim false (fun i => be.booking_id == i)))).map
      (fun be => be.quantity)).sum

/-- `AvailabilityService.check_equipment_available`: `none` models the
`Equipment.objects.get` raising `DoesNotExist`; otherwise the check is
`available_quantity >= quantity`. -/
def check_equipment_available (db : DB) (equipment_id : Nat) (quantity : Int)
    (date start_time end_time : Nat) (exclude_booking_id : Option Nat) :
    Option Bool :=
  match db.equipments.find? (fun e => e.id == equipment_id) with
  | none => none
  | some equipment =>
    let booked := bookedQuantity db equipment_id date start_time end_time exclude_booking_id
    let available_quantity : Int := (equipment.total_quantity : Int) - booked
    some (decide (available_quantity ≥ quantity))

/-- The equipment part of `check_all_resources_available`: one error line per
line item whose quantity check fails; `none` models a raised `DoesNotExist`. -/
def equipmentErrors (db : DB) (date start_time end_time : Nat) :
    List (Nat × Int) → Option (List String)
  | [] => some []
  | (eid, q) :: rest =>
    match check_equipment_available db eid q date start_time end_time none with
    | none => none
    | some ok =>
      match equipmentErrors db date start_time end_time rest with
      | none => none
      | some errs =>
        if ok then some errs
        else
          match db.equipments.find? (fun e => e.id == eid) with
          | none => none
          | some e => some (("Insufficient " ++ e.name ++ " available") :: errs)

/-- Result dict of `check_all_resources_available`. -/
structure CheckResult where
  available : Bool
  errors : List String
deriving Repr, DecidableEq

/-- `AvailabilityService.check_all_resources_available`: validates court,
every equipment line item and (when requested) the coach, aggregating all
error strings; `available` iff the error list is empty. -/
def check_all_resources_available (db : DB) (date start_time end_time : Nat)
    (court_id : Nat) (equipment_list : List (Nat × Int))
    (coach_id : Option Nat) : Option CheckResult :=
  let courtErrs :=
    if !check_court_available db court_id date start_time end_time none then
      ["Selected court is not available for this time slot"]
    else []
  match equipmentErrors db date start_time end_time equipment_list with
  | none => none
  | some eqErrs =>
    let coachErrs :=
      match coach_id with
      | some cid =>
        if !check_coach_available db cid date start_time end_time none then
          ["Selected coach is not available for this time slot"]
        else []
      | none => []
    let errors := courtErrs ++ eqErrs ++ coachErrs
    some ⟨errors.isEmpty, errors⟩

/-- Filter of `WaitlistService.add_to_waitlist`'s duplicate check: same
user, court, date, window, and status WAITING. -/
def samePairWaiting (user_id court_id date start_time end_time : Nat)
    (w : WaitlistEntry) : Bool :=
  w.user_id == user_id && w.court_id == court_id && w.date == date &&
  w.start_time == start_time && w.end_time == end_time && w.status == "WAITING"

/-- `WaitlistService.add_to_waitlist`: returns `none` leaving the state
unchanged when a WAITING entry for the exact (user, slot) pair exists,
otherwise creates a fresh WAITING entry. -/
def add_to_waitlist (db : DB) (user_id court_id date start_time end_time : Nat) :
    Option WaitlistEntry × DB :=
  match db.waitlist.find? (samePairWaiting user_id court_id date start_time end_time) with
  | some _ => (none, db)
  | none =>
    let e : WaitlistEntry :=
      ⟨db.next_waitlist_id, user_id, court_id, date, start_time, end_time,
       "WAITING", db.now, none⟩
    (some e, { db with waitlist := db.waitlist ++ [e],
                       next_waitlist_id := db.next_waitlist_id + 1 })

/-- Filter shared by `get_waitlist_position` and `notify_next_in_queue`:
WAITING entries for the (court, date, window) key. -/
def waitingForKey (court_id date start_time end_time : Nat)
    (w : WaitlistEntry) : Bool :=
  w.court_id == court_id && w.date == date && w.start_time == start_time &&
  w.end_time == end_time && w.status == "WAITING"

/-- Sort key of the waitlist queries' `order_by('created_at')`. -/
def createdAtLE (a b : WaitlistEntry) : Prop :=
  a.created_at ≤ b.created_at

instance : DecidableRel createdAtLE :=
  fun a b => inferInstanceAs (Decidable (a.created_at ≤ b.created_at))

instance : IsTotal WaitlistEntry createdAtLE :=
  ⟨fun a b => Nat.le_total a.created_at b.created_at⟩

instance : IsTrans WaitlistEntry createdAtLE :=
  ⟨fun _ _ _ h1 h2 => le_trans h1 h2⟩

/-- `WaitlistService.get_waitlist_position`: 1-indexed rank of the user among
the WAITING entries for the key ordered by `created_at`. -/
def get_waitlist_position (db : DB) (user_id court_id date start_time end_time : Nat) :
    Option Nat :=
  let entries := (db.waitlist.filter (waitingForKey court_id date start_time end_time)).insertionSort
    createdAtLE
  (entries.findIdx? (fun e => e.user_id == user_id)).map (fun i => i + 1)

/-- `WaitlistService.notify_next_in_queue`: the oldest WAITING entry for the
key (queryset ordered by `created_at`, `.first()`) is flipped to NOTIFIED
with `notified_at = now`; `none` and an unchanged state when the queue is
empty. -/
def notify_next_in_queue (db : DB) (court_id date start_time end_time : Nat) :
    Option WaitlistEntry × DB :=
  let queue := (db.waitlist.filter (waitingForKey court_id date start_time end_time)).insertionSort
    createdAtLE
  match queue.head? with
  | none => (none, db)
  | some e =>
    let e' := { e with status := "NOTIFIED", notified_at := some db.now }
    (some e',
     { db with waitlist := db.waitlist.map (fun w => if w.id == e.id then e' else w) })

/-- Request body of the `confirm_booking` view: `equipment` is the list of
`{'id': ..., 'quantity': ...}` line items. -/
structure BookingRequest where
  user_id : Nat
  court_id : Nat
  date : Nat
  start_time : Nat
  end_time : Nat
  equipment : List (Nat × Int)
  coach_id : Option Nat
deriving Repr, DecidableEq

/-- JSON outcomes of `views.confirm_booking`: success (201-style payload with
the booking id), the distinct `slot_full` 409 response offering the
waitlist, the 400 response with itemized availability errors, and the
generic `except Exception` 400 response. -/
inductive BookingOutcome where
  | success (booking_id : Nat)
  | slotFull
  | validationErrors (errors : List String)
  | fault (msg : String)
deriving Repr, DecidableEq

/-- `[Equipment.objects.get(id=e['id']) for e in equipment_list]`: `none`
models a raised `DoesNotExist`. -/
def getEquipmentInstances (db : DB) : List (Nat × Int) → Option (List Equipment)
  | [] => some []
  | (eid, _) :: rest =>
    match db.equipments.find? (fun e => e.id == eid) with
    | none => none
    | some e => (getEquipmentInstances db rest).map (fun l => e :: l)

/-- `views.confirm_booking` (the body of its `transaction.atomic()` block):
court lookup, overlap re-check returning the `slot_full` outcome, combined
availability check, coach/equipment lookups, pricing, then creation of the
Booking row and one BookingEquipment row per line item.  Every non-success
outcome leaves the state unchanged (the transaction commits only on the
success path). -/
def confirm_booking (db : DB) (req : BookingRequest) : BookingOutcome × DB :=
  match db.courts.find? (fun c => c.id == req.court_id) with
  | none => (.fault "Court matching query does not exist.", db)
  | some court =>
    if db.bookings.any (fun b =>
        b.court_id == court.id && b.date == req.date &&
        b.start_time < req.end_time && b.end_time > req.start_time &&
        b.status == "CONFIRMED") then
      (.slotFull, db)
    else
      match check_all_resources_available db req.date req.start_time
          req.end_time req.court_id req.equipment req.coach_id with
      | none => (.fault "Equipment matching query does not exist.", db)
      | some check =>
        if !check.available then
          (.validationErrors check.errors, db)
        else
          let coachLookup : Option (Option Coach) :=
            match req.coach_id with
            | none => some none
            | some cid =>
              match db.coaches.find? (fun c => c.id == cid) with
              | none => none
              | some c => some (some c)
          match coachLookup with
          | none => (.fault "Coach matching query does not exist.", db)
          | some coach =>
            match getEquipmentInstances db req.equipment with
            | none => (.fault "Equipment matching query does not exist.", db)
            | some equipment_instances =>
              let pricing := calculate_price db.rules court req.date
                req.start_time req.end_time equipment_instances coach
              let booking : Booking :=
                ⟨db.next_booking_id, req.user_id, req.court_id, req.date,
                 req.start_time, req.end_time, req.coach_id,
                 pricing.base_price, pricing.total_price, "CONFIRMED"⟩
              let items := req.equipment.map
                (fun item => BookingEquipment.mk db.next_booking_id item.1 item.2)
              (.success booking.id,
               { db with bookings := db.bookings ++ [booking],
                         booking_equipment := db.booking_equipment ++ items,
                         next_booking_id := db.next_booking_id + 1 })

/-- JSON outcomes of `views.cancel_booking`: success (optionally naming the
notified user), the 404 `Booking.DoesNotExist` response, and the generic
`except Exception` 400 response. -/
inductive CancelOutcome where
  | success (notified_user : Option Nat)
  | notFound
  | fault
deriving Repr, DecidableEq

/-- `views.cancel_booking`.  `notify_raises` models whether the
`WaitlistService.notify_next_in_queue` call raises: the call happens inside
the view's `transaction.atomic()` block, so a raised exception propagates
out of the block, rolls back every write of the transaction — including the
`booking.save()` that set the status to CANCELLED — and is answered by the
generic handler.  Only when notification does not raise does the
cancellation (and the notification) commit. -/
def cancel_booking (db : DB) (user_id booking_id : Nat) (notify_raises : Bool) :
    CancelOutcome × DB :=
  match db.bookings.find? (fun b =>
      b.id == booking_id && b.user_id == user_id && b.status == "CONFIRMED") with
  | none => (.notFound, db)
  | some b =>
    if notify_raises then
      (.fault, db)
    else
      let db1 := { db with bookings := db.bookings.map (fun x =>
        if x.id == b.id then { x with status := "CANCELLED" } else x) }
      let res := notify_next_in_queue db1 b.court_id b.date b.start_time b.end_time
      (.success (res.1.map (fun w => w.user_id)), res.2)

/-- JSON outcomes of `views.join_waitlist`. -/
inductive JoinOutcome where
  | success (position : Option Nat)
  | duplicate
  | fault
deriving Repr, DecidableEq

/-- `views.join_waitlist`: court lookup (only to surface `DoesNotExist`),
then `add_to_waitlist`; note that no check that the slot is actually booked
is performed anywhere on this path. -/
def join_waitlist (db : DB) (user_id court_id date start_time end_time : Nat) :
    JoinOutcome × DB :=
  match db.courts.find? (fun c => c.id == court_id) with
  | none => (.fault, db)
  | some _ =>
    let res := add_to_waitlist db user_id court_id date start_time end_time
    match res.1 with
    | some _ =>
      (.success (get_waitlist_position res.2 user_id court_id date start_time end_time),
       res.2)
    | none => (.duplicate, db)

/-- §3 invariant of the spec: at most one WAITING entry per
(requester, court, date, window) pair. -/
def atMostOneWaiting (l : List WaitlistEntry) : Prop :=
  ∀ w1 ∈ l, ∀ w2 ∈ l, w1.status = "WAITING" → w2.status = "WAITING" →
    w1.user_id = w2.user_id → w1.court_id = w2.court_id → w1.date = w2.date →
    w1.start_time = w2.start_time → w1.end_time = w2.end_time → w1 = w2

/-- Example indoor court (seed-data style fixture). -/
def indoorCourt : Court := ⟨1, "Court 1", "INDOOR", true⟩

/-- Indoor +20% percentage rule, priority 1 (spec §8 example). -/
def indoorRule : PricingRule :=
  ⟨"Indoor Premium", "INDOOR_PREMIUM", 6/5, 0, true, true, 1, none, none, ""⟩

/-- Peak +50% percentage rule, priority 2, window 18–21 (spec §8 example). -/
def peakRule : PricingRule :=
  ⟨"Peak Hours Premium", "PEAK_HOURS", 3/2, 0, true, true, 2, some 18, some 21, ""⟩

/-- Enabled rule named "B", priority 1 (tie-break fixture). -/
def ruleNamedB : PricingRule :=
  ⟨"B", "INDOOR_PREMIUM", 2, 0, true, true, 1, none, none, ""⟩

/-- Enabled rule named "A", priority 1 (tie-break fixture). -/
def ruleNamedA : PricingRule :=
  ⟨"A", "INDOOR_PREMIUM", 3, 0, true, true, 1, none, none, ""⟩

/-- COACH_FEE flat rule whose own `flat_fee` is 0 (spec §8 example). -/
def coachFeeRule : PricingRule :=
  ⟨"Coach Fee", "COACH_FEE", 1, 0, false, true, 3, none, none, ""⟩

/-- Coach with hourly fee 200 (spec §8 example). -/
def coach200 : Coach := ⟨2, "Coach B", 200, true⟩

/-- Equipment pool of 5 rackets. -/
def racket : Equipment := ⟨1, "Racket", "RACKET", 5⟩

/-- An inactive coach. -/
def coachInactive : Coach := ⟨1, "Coach A", 100, false⟩

/-- Weekly availability of coach 1 on Monday 6–22. -/
def availMonday : CoachAvailability := ⟨1, 0, 6, 22⟩

/-- A CONFIRMED booking of court 1 on date 0, 9–10, by user 1. -/
def booking1 : Booking := ⟨1, 1, 1, 0, 9, 10, none, 500, 500, "CONFIRMED"⟩

/-- WAITING entry of user 10 for (court 1, date 0, 9–10), created at 5. -/
def waitA : WaitlistEntry := ⟨1, 10, 1, 0, 9, 10, "WAITING", 5, none⟩

/-- WAITING entry of user 11 for the same key, created later (at 6). -/
def waitB : WaitlistEntry := ⟨2, 11, 1, 0, 9, 10, "WAITING", 6, none⟩

/-- Empty state. -/
def emptyDB : DB := ⟨[], [], [], [], [], [], [], [], 1, 1, 100⟩

/-- State with court 1 already CONFIRMED-booked on date 0, 9–10, and one
waiting user. -/
def dbBooked : DB :=
  { emptyDB with courts := [indoorCourt], bookings := [booking1],
                 waitlist := [waitA], next_booking_id := 2 }

/-- State with a free court and a free equipment pool and no bookings. -/
def dbFree : DB :=
  { emptyDB with courts := [indoorCourt], equipments := [racket] }

/-- State with an inactive coach who has a containing availability window. -/
def dbCoach : DB :=
  { emptyDB with courts := [indoorCourt], coaches := [coachInactive],
                 coach_avail := [availMonday] }

/-- State whose waitlist holds two WAITING entries for the same key, stored
out of arrival order. -/
def dbQueue : DB :=
  { emptyDB with courts := [indoorCourt], waitlist := [waitB, waitA],
                 next_waitlist_id := 3 }

/-- Request for the already-booked slot of `dbBooked`. -/
def reqSlotTaken : BookingRequest := ⟨2, 1, 0, 9, 10, [], none⟩

/-- Request with an equipment line item of quantity 0. -/
def reqZeroQty : BookingRequest := ⟨1, 1, 0, 9, 10, [(1, 0)], none⟩

/-- Request attaching coach 1 (inactive in `dbCoach`). -/
def reqWithCoach : BookingRequest := ⟨1, 1, 0, 9, 10, [], some 1⟩

theorem sumAmounts_append (l : List BreakdownItem) (b : BreakdownItem) :
    sumAmounts (l ++ [b]) = sumAmounts l + b.amount := by
  simp [sumAmounts]

theorem foldl_applyRule_sum (court : Court) (d st et : Nat)
    (eql : List Equipment) (coach : Option Coach) :
    ∀ (l : List PricingRule) (acc : Rat × List BreakdownItem),
      sumAmounts acc.2 = acc.1 →
      sumAmounts ((l.foldl (applyRule court d st et eql coach) acc).2)
        = (l.foldl (applyRule court d st et eql coach) acc).1
  | [], _, h => h
  | r :: l, acc, h => by
    rw [List.foldl_cons]
    apply foldl_applyRule_sum court d st et eql coach l
    unfold applyRule
    by_cases hap : ruleApplied r court d st et eql coach = true
    · simp [hap, sumAmounts_append, h]
    · simp only [hap]
      simpa using h

/-- C8: the half-open overlap predicate is symmetric, and the adjacent
windows [9,10) and [10,11) do not overlap (in either argument order). -/
theorem time_overlaps_symm_and_adjacent :
    (∀ s1 e1 s2 e2 : Nat,
      time_overlaps s1 e1 s2 e2 = time_overlaps s2 e2 s1 e1)
    ∧ time_overlaps 9 10 10 11 = false
    ∧ time_overlaps 10 11 9 10 = false := by
  refine ⟨fun s1 e1 s2 e2 => ?_, by decide, by decide⟩
  simp only [time_overlaps, gt_iff_lt]
  rw [Bool.and_comm]

/-- C3: every applied percentage rule contributes
`delta = current_price * (multiplier - 1)` on the running price and the
breakdown records the increment, so the breakdown amounts (base entry
included) always sum to `total_price`; on the spec's example — base 500,
Indoor +20% at priority 1, Peak +50% at priority 2, indoor peak-hour
booking — the totals compound 500 → 600 → 900 (increments 100 then 300). -/
theorem breakdown_sums_and_compounds :
    (∀ (rules : List PricingRule) (court : Court) (date st et : Nat)
       (eql : List Equipment) (coach : Option Coach),
      sumAmounts (calculate_price rules court date st et eql coach).breakdown
        = (calculate_price rules court date st et eql coach).total_price)
    ∧ (calculate_price [indoorRule, peakRule] indoorCourt 0 18 19 [] none).total_price
        = 900
    ∧ (calculate_price [indoorRule, peakRule] indoorCourt 0 18 19 [] none).breakdown.map
        (fun b => (b.rule, b.amount))
        = [("Base Court Price", 500), ("Indoor Premium", 100),
           ("Peak Hours Premium", 300)] := by
  refine ⟨fun rules court date st et eql coach => ?_, ?_, ?_⟩
  · unfold calculate_price
    apply foldl_applyRule_sum
    simp [sumAmounts]
  · simp +decide [calculate_price, orderedEnabledRules, List.insertionSort,
      List.orderedInsert, priorityLE, applyRule, ruleApplied, ruleDelta,
      time_overlaps, indoorRule, peakRule, indoorCourt, BASE_COURT_PRICE]
    norm_num
  · simp +decide [calculate_price, orderedEnabledRules, List.insertionSort,
      List.orderedInsert, priorityLE, applyRule, ruleApplied, ruleDelta,
      time_overlaps, indoorRule, peakRule, indoorCourt, BASE_COURT_PRICE]
    norm_num

/-- C4 counterexample: two enabled rules share priority 1 but are stored
with name "B" before name "A"; the engine's `order_by('priority')` keeps
them in stored order, evaluating "B" before "A" — not in ascending name
order — and the breakdown records that evaluation order. -/
theorem rule_order_name_tiebreak_counterexample :
    (orderedEnabledRules [ruleNamedB, ruleNamedA]).map (fun r => r.name)
      = ["B", "A"]
    ∧ ruleNamedB.priority = ruleNamedA.priority
    ∧ ruleNamedA.name.data < ruleNamedB.name.data
    ∧ (calculate_price [ruleNamedB, ruleNamedA] indoorCourt 0 9 10 [] none).breakdown.map
        (fun b => b.rule)
      = ["Base Court Price", "B", "A"] := by
  refine ⟨by decide, rfl, by decide, by decide⟩

/-- C4 amended: the evaluated rule list is the enabled rules sorted by
`priority` ascending only — a stable sort of the stored order, with the
relative order of equal-priority rules inherited from the fetch order, not
from rule names. -/
theorem rule_order_priority_only (rules : List PricingRule) :
    List.Sorted priorityLE (orderedEnabledRules rules)
    ∧ (orderedEnabledRules rules).Perm (rules.filter (fun r => r.is_enabled)) :=
  ⟨List.sorted_insertionSort priorityLE _, List.perm_insertionSort priorityLE _⟩

/-- C6: an applied flat-fee `EQUIPMENT_FEE` rule contributes
`flat_fee * (number of line items)`; an applied flat-fee `COACH_FEE` rule
contributes the coach's own `hourly_fee`, ignoring the rule's `flat_fee`
(0/200 example included); any other flat-fee rule contributes `flat_fee`. -/
theorem flat_fee_contributions (rule : PricingRule) (p : Rat)
    (eql : List Equipment) (c : Coach) (coach : Option Coach)
    (hflat : rule.is_percentage = false) :
    (rule.rule_type = "EQUIPMENT_FEE" →
      ruleDelta rule p eql coach = rule.flat_fee * eql.length)
    ∧ (rule.rule_type = "COACH_FEE" → coach = some c →
      ruleDelta rule p eql coach = c.hourly_fee)
    ∧ (rule.rule_type ≠ "EQUIPMENT_FEE" → rule.rule_type ≠ "COACH_FEE" →
      ruleDelta rule p eql coach = rule.flat_fee)
    ∧ ruleDelta coachFeeRule p eql (some coach200) = 200 := by
  refine ⟨?_, ?_, ?_, ?_⟩
  · intro h
    simp [ruleDelta, hflat, h]
  · intro h hc
    simp [ruleDelta, hflat, h, hc]
  · intro h1 h2
    simp [ruleDelta, hflat, h1, h2]
  · simp +decide [ruleDelta, coachFeeRule, coach200]

theorem flat_fee_contributions_witness :
    coachFeeRule.is_percentage = false
    ∧ ruleDelta coachFeeRule 500 [] (some coach200) = coach200.hourly_fee :=
  ⟨rfl, (flat_fee_contributions coachFeeRule 500 [] coach200 (some coach200)
    rfl).2.1 rfl rfl⟩

/-- C1: whenever the requested court exists and already has a CONFIRMED
booking overlapping the requested window on the same date,
`confirm_booking` answers with the distinct `slotFull` outcome (the 409
`slot_full` waitlist offer, not a `validationErrors` response) and leaves
the persisted state — bookings and equipment line items included —
unchanged. -/
theorem slot_taken_outcome (db : DB) (req : BookingRequest)
    (hcourt : ∃ c ∈ db.courts, c.id = req.court_id)
    (hbusy : ∃ b ∈ db.bookings, b.court_id = req.court_id ∧ b.date = req.date ∧
      b.start_time < req.end_time ∧ b.end_time > req.start_time ∧
      b.status = "CONFIRMED") :
    confirm_booking db req = (.slotFull, db) := by
  obtain ⟨b, hbmem, hb1, hb2, hb3, hb4, hb5⟩ := hbusy
  have hsome : (db.courts.find? (fun c => c.id == req.court_id)).isSome := by
    rw [List.find?_isSome]
    obtain ⟨c, hcmem, hcid⟩ := hcourt
    exact ⟨c, hcmem, by simp [hcid]⟩
  obtain ⟨c, hc⟩ := Option.isSome_iff_exists.mp hsome
  have hcid : c.id = req.court_id := by
    have := List.find?_some hc
    simpa using this
  have hany : (db.bookings.any fun x => x.court_id == c.id && x.date == req.date &&
      x.start_time < req.end_time && x.end_time > req.start_time &&
      x.status == "CONFIRMED") = true := by
    rw [List.any_eq_true]
    exact ⟨b, hbmem, by simp [hcid, hb1, hb2, hb3, hb4, hb5]⟩
  unfold confirm_booking
  rw [hc]
  simp [hany]

theorem slot_taken_outcome_witness :
    confirm_booking dbBooked reqSlotTaken = (.slotFull, dbBooked) :=
  slot_taken_outcome dbBooked reqSlotTaken
    ⟨indoorCourt, by simp [dbBooked, emptyDB], rfl⟩
    ⟨booking1, by simp [dbBooked, emptyDB], rfl, rfl, by decide, by decide, rfl⟩

/-- C2 counterexample: in `dbBooked` user 1 owns CONFIRMED booking 1 and the
slot has a waiting user, yet when the waitlist-notification step raises,
`cancel_booking` returns the generic error with the state rolled back to
exactly `dbBooked` — the booking is still CONFIRMED, so the status change
did not commit. -/
theorem cancel_notify_failure_counterexample :
    cancel_booking dbBooked 1 1 true = (.fault, dbBooked)
    ∧ dbBooked.bookings.map (fun b => (b.id, b.user_id, b.status))
        = [(1, 1, "CONFIRMED")]
    ∧ dbBooked.waitlist.map (fun w => w.status) = ["WAITING"] :=
  ⟨rfl, by decide, by decide⟩

theorem notify_next_preserves_bookings (db : DB) (cid d st et : Nat) :
    (notify_next_in_queue db cid d st et).2.bookings = db.bookings := by
  rcases h : ((db.waitlist.filter (waitingForKey cid d st et)).insertionSort
      createdAtLE).head? with _ | e <;>
    simp [notify_next_in_queue, h]

/-- C2 amended: the notification call sits inside the cancellation's
`transaction.atomic()` block, so a raising notification rolls the whole
transaction back: the state is returned unchanged (the booking stays
CONFIRMED) and the generic error outcome is produced; the CANCELLED status
persists only when notification does not raise. -/
theorem cancel_rolls_back_on_notify_failure (db : DB) (u bid : Nat) :
    (cancel_booking db u bid true).2 = db
    ∧ ((∃ b ∈ db.bookings, b.id = bid ∧ b.user_id = u ∧ b.status = "CONFIRMED") →
        (cancel_booking db u bid true).1 = .fault)
    ∧ (∀ b, db.bookings.find? (fun x => x.id == bid && x.user_id == u &&
          x.status == "CONFIRMED") = some b →
        (cancel_booking db u bid false).2.bookings
          = db.bookings.map (fun x => if x.id == b.id then
              { x with status := "CANCELLED" } else x)) := by
  refine ⟨?_, ?_, ?_⟩
  · unfold cancel_booking
    cases hfind : db.bookings.find? (fun x => x.id == bid && x.user_id == u &&
        x.status == "CONFIRMED") with
    | none => rfl
    | some b => rfl
  · intro hex
    have hsome : (db.bookings.find? (fun x => x.id == bid && x.user_id == u &&
        x.status == "CONFIRMED")).isSome := by
      rw [List.find?_isSome]
      obtain ⟨b, hbmem, h1, h2, h3⟩ := hex
      exact ⟨b, hbmem, by simp [h1, h2, h3]⟩
    obtain ⟨b, hb⟩ := Option.isSome_iff_exists.mp hsome
    simp [cancel_booking, hb]
  · intro b hb
    simp only [cancel_booking, hb, Bool.false_eq_true, if_false]
    rw [notify_next_preserves_bookings]

theorem cancel_rolls_back_witness :
    (cancel_booking dbBooked 1 1 true).2 = dbBooked
    ∧ (cancel_booking dbBooked 1 1 true).1 = .fault :=
  ⟨(cancel_rolls_back_on_notify_failure dbBooked 1 1).1,
   (cancel_rolls_back_on_notify_failure dbBooked 1 1).2.1
     ⟨booking1, by simp [dbBooked, emptyDB], rfl, rfl, rfl⟩⟩

/-- C5 counterexample: in `dbFree` a booking request carrying an equipment
line item with quantity 0 is not rejected as invalid input — the
availability logic runs, accepts it, and `confirm_booking` creates the
Booking and a BookingEquipment row with quantity 0. -/
theorem zero_quantity_counterexample :
    (confirm_booking dbFree reqZeroQty).1 = .success 1
    ∧ (confirm_booking dbFree reqZeroQty).2.booking_equipment
        = [⟨1, 1, 0⟩]
    ∧ (confirm_booking dbFree reqZeroQty).2.bookings.map
        (fun b => (b.id, b.status)) = [(1, "CONFIRMED")] :=
  ⟨rfl, rfl, rfl⟩

/-- C5 amended: a requested equipment quantity of 0 or less is never
pre-validated: the quantity reaches `check_equipment_available`, which
merely tests `available_quantity >= quantity`, so any non-positive quantity
passes whenever the pool is not oversubscribed, and `confirm_booking`
proceeds to create the reservation. -/
theorem nonpositive_quantity_reaches_availability (db : DB) (eid : Nat)
    (q : Int) (d st et : Nat) (e : Equipment)
    (hq : q ≤ 0)
    (hfind : db.equipments.find? (fun x => x.id == eid) = some e)
    (hpool : bookedQuantity db eid d st et none ≤ (e.total_quantity : Int)) :
    check_equipment_available db eid q d st et none = some true := by
  unfold check_equipment_available
  rw [hfind]
  have hge : (e.total_quantity : Int) - bookedQuantity db eid d st et none ≥ q := by
    omega
  simp [hge]

theorem nonpositive_quantity_witness :
    check_equipment_available dbFree 1 0 0 9 10 none = some true :=
  nonpositive_quantity_reaches_availability dbFree 1 0 0 9 10 racket
    (by decide) rfl (by decide)

/-- C9: `check_coach_available` (used via `check_all_resources_available` by
`confirm_booking`) never reads the coach's `is_active` flag: a coach all of
whose catalog rows are inactive still passes it whenever a containing
weekly window exists and no overlapping CONFIRMED booking has the coach —
while `get_available_coaches` filters on `coach__is_active=True` and
therefore never lists that coach. -/
theorem inactive_coach_accepted (db : DB) (cid d st et : Nat)
    (havail : ∃ a ∈ db.coach_avail, a.coach_id = cid ∧ a.day_of_week = d % 7 ∧
      a.start_time ≤ st ∧ a.end_time ≥ et)
    (hnobook : ∀ b ∈ db.bookings, ¬(b.coach_id = some cid ∧ b.date = d ∧
      b.start_time < et ∧ b.end_time > st ∧ b.status = "CONFIRMED"))
    (hinactive : ∀ c ∈ db.coaches, c.id = cid → c.is_active = false) :
    check_coach_available db cid d st et none = true
    ∧ ∀ c ∈ get_available_coaches db d st et, c.id ≠ cid := by
  constructor
  · have hav : (db.coach_avail.any fun a =>
        a.coach_id == cid && a.day_of_week == d % 7 &&
        a.start_time ≤ st && a.end_time ≥ et) = true := by
      rw [List.any_eq_true]
      obtain ⟨a, hamem, h1, h2, h3, h4⟩ := havail
      exact ⟨a, hamem, by simp [h1, h2, h3, h4]⟩
    simp only [check_coach_available, hav, Bool.not_true, Bool.false_eq_true,
      if_false, Bool.not_eq_true']
    rw [List.any_eq_false]
    intro b hbmem
    have hb := hnobook b hbmem
    simp only [Option.elim, Bool.not_false, Bool.and_true]
    intro hcontra
    apply hb
    simp only [Bool.and_eq_true, beq_iff_eq, decide_eq_true_eq] at hcontra
    exact ⟨hcontra.1.1.1.1, hcontra.1.1.1.2, hcontra.1.1.2, hcontra.1.2, hcontra.2⟩
  · intro c hc hcid
    unfold get_available_coaches at hc
    rw [List.mem_filter] at hc
    obtain ⟨-, hcond⟩ := hc
    rw [Bool.and_eq_true] at hcond
    have hcontains := hcond.1
    rw [List.contains_iff_exists_mem_beq] at hcontains
    obtain ⟨x, hxmem, hxbeq⟩ := hcontains
    rw [List.mem_map] at hxmem
    obtain ⟨a, hamem, hax⟩ := hxmem
    rw [List.mem_filter] at hamem
    obtain ⟨-, hacond⟩ := hamem
    have hfound : ((db.coaches.find? (fun c' => c'.id == a.coach_id)).elim false
        (fun c' => c'.is_active)) = true := by
      simp only [Bool.and_eq_true] at hacond
      exact hacond.2
    cases hfq : db.coaches.find? (fun c' => c'.id == a.coach_id) with
    | none => rw [hfq] at hfound; simp at hfound
    | some c' =>
      rw [hfq] at hfound
      simp only [Option.elim] at hfound
      have hc'id : c'.id = a.coach_id := by
        have := List.find?_some hfq
        simpa using this
      have hc'mem : c' ∈ db.coaches := List.mem_of_find?_eq_some hfq
      have : c'.is_active = false := by
        apply hinactive c' hc'mem
        rw [hc'id, hax]
        rw [beq_iff_eq] at hxbeq
        rw [← hxbeq]
        exact hcid
      rw [this] at hfound
      cases hfound

theorem inactive_coach_accepted_witness :
    (check_coach_available dbCoach 1 0 9 10 none = true
      ∧ ∀ c ∈ get_available_coaches dbCoach 0 9 10, c.id ≠ 1)
    ∧ (confirm_booking dbCoach reqWithCoach).1 = .success 1
    ∧ (confirm_booking dbCoach reqWithCoach).2.bookings.map
        (fun b => (b.coach_id, b.status)) = [(some 1, "CONFIRMED")]
    ∧ get_available_coaches dbCoach 0 9 10 = [] :=
  ⟨inactive_coach_accepted dbCoach 1 0 9 10
      ⟨availMonday, by simp [dbCoach, emptyDB], rfl, rfl, by decide, by decide⟩
      (by simp [dbCoach, emptyDB])
      (by
        intro c hc _
        simp only [dbCoach, emptyDB] at hc
        rw [List.mem_singleton] at hc
        rw [hc]
        rfl),
   rfl, rfl, rfl⟩

/-- C10: `add_to_waitlist` creates a fresh WAITING entry iff no WAITING
entry exists for the exact (user, court, date, window) pair, returning
`none` with the state unchanged otherwise; it therefore preserves the
at-most-one-WAITING-per-pair invariant; entries of any other status for the
same pair never block the join; and the outcome is independent of the
bookings table — a user can join the waitlist for a completely free slot. -/
theorem add_to_waitlist_spec (db : DB) (u cid d st et : Nat) :
    ((∃ w ∈ db.waitlist, samePairWaiting u cid d st et w = true) →
      add_to_waitlist db u cid d st et = (none, db))
    ∧ ((¬ ∃ w ∈ db.waitlist, samePairWaiting u cid d st et w = true) →
      add_to_waitlist db u cid d st et =
        (some ⟨db.next_waitlist_id, u, cid, d, st, et, "WAITING", db.now, none⟩,
         { db with
           waitlist := db.waitlist ++
             [⟨db.next_waitlist_id, u, cid, d, st, et, "WAITING", db.now, none⟩],
           next_waitlist_id := db.next_waitlist_id + 1 }))
    ∧ (atMostOneWaiting db.waitlist →
        atMostOneWaiting (add_to_waitlist db u cid d st et).2.waitlist)
    ∧ (∀ bks : List Booking,
        (add_to_waitlist { db with bookings := bks } u cid d st et).1
          = (add_to_waitlist db u cid d st et).1
        ∧ (add_to_waitlist { db with bookings := bks } u cid d st et).2.waitlist
          = (add_to_waitlist db u cid d st et).2.waitlist) := by
  cases hfind : db.waitlist.find? (samePairWaiting u cid d st et) with
  | some w =>
    refine ⟨fun _ => ?_, fun hno => ?_, fun hinv => ?_, fun bks => ?_⟩
    · simp [add_to_waitlist, hfind]
    · exact absurd ⟨w, List.mem_of_find?_eq_some hfind,
        List.find?_some hfind⟩ hno
    · simpa [add_to_waitlist, hfind] using hinv
    · constructor <;> simp [add_to_waitlist, hfind]
  | none =>
    have hnone : ∀ w ∈ db.waitlist, samePairWaiting u cid d st et w = false := by
      intro w hw
      have := List.find?_eq_none.mp hfind w hw
      simpa using this
    refine ⟨fun hex => ?_, fun _ => ?_, fun hinv => ?_, fun bks => ?_⟩
    · obtain ⟨w, hw, hsp⟩ := hex
      rw [hnone w hw] at hsp
      cases hsp
    · simp [add_to_waitlist, hfind]
    · simp only [add_to_waitlist, hfind]
      intro w1 h1 w2 h2 hs1 hs2 hu hc hd hst het
      rw [List.mem_append] at h1 h2
      have hkey : ∀ w, w ∈ [(⟨db.next_waitlist_id, u, cid, d, st, et,
          "WAITING", db.now, none⟩ : WaitlistEntry)] →
          w.user_id = u ∧ w.court_id = cid ∧ w.date = d ∧
          w.start_time = st ∧ w.end_time = et ∧ w.status = "WAITING" := by
        intro w hw
        rw [List.mem_singleton] at hw
        rw [hw]
        exact ⟨rfl, rfl, rfl, rfl, rfl, rfl⟩
      rcases h1 with h1 | h1 <;> rcases h2 with h2 | h2
      · exact hinv w1 h1 w2 h2 hs1 hs2 hu hc hd hst het
      · obtain ⟨k1, k2, k3, k4, k5, -⟩ := hkey w2 h2
        have : samePairWaiting u cid d st et w1 = true := by
          simp [samePairWaiting, hu.trans k1, hc.trans k2, hd.trans k3,
            hst.trans k4, het.trans k5, hs1]
        rw [hnone w1 h1] at this
        cases this
      · obtain ⟨k1, k2, k3, k4, k5, -⟩ := hkey w1 h1
        have : samePairWaiting u cid d st et w2 = true := by
          simp [samePairWaiting, (hu.symm.trans k1), (hc.symm.trans k2),
            (hd.symm.trans k3), (hst.symm.trans k4), (het.symm.trans k5), hs2]
        rw [hnone w2 h2] at this
        cases this
      · rw [List.mem_singleton] at h1 h2
        rw [h1, h2]
    · constructor <;> simp [add_to_waitlist, hfind]

theorem add_to_waitlist_spec_witness :
    add_to_waitlist dbFree 1 1 0 9 10 =
      (some ⟨1, 1, 1, 0, 9, 10, "WAITING", 100, none⟩,
       { dbFree with
         waitlist := [⟨1, 1, 1, 0, 9, 10, "WAITING", 100, none⟩],
         next_waitlist_id := 2 })
    ∧ dbFree.bookings = [] :=
  ⟨(add_to_waitlist_spec dbFree 1 1 0 9 10).2.1 (by simp [dbFree, emptyDB]),
   rfl⟩

theorem head_insertionSort_created_at_min (l : List WaitlistEntry)
    (e : WaitlistEntry)
    (h : (l.insertionSort createdAtLE).head? = some e) :
    e ∈ l ∧ ∀ x ∈ l, e.created_at ≤ x.created_at := by
  have hperm := List.perm_insertionSort createdAtLE l
  have hs := List.sorted_insertionSort createdAtLE l
  cases hsort : l.insertionSort createdAtLE with
  | nil => rw [hsort] at h; cases h
  | cons a t =>
    rw [hsort] at h hs hperm
    rw [List.head?_cons] at h
    injection h with h
    subst h
    constructor
    · exact hperm.mem_iff.mp (List.mem_cons_self _ _)
    · intro x hx
      have hx' : x ∈ a :: t := hperm.mem_iff.mpr hx
      rcases List.mem_cons.mp hx' with rfl | hxt
      · exact le_refl _
      · exact (List.sorted_cons.mp hs).1 x hxt

/-- C7: when some WAITING entry exists for the (court, date, window) key,
`notify_next_in_queue` picks a WAITING entry of minimal `created_at` for
that key, flips exactly that entry to NOTIFIED stamping `notified_at`, and
returns it; every other entry (in particular every other WAITING entry for
the key) is left untouched; with no WAITING entry for the key it returns
`none` and changes nothing. -/
theorem notify_next_spec (db : DB) (cid d st et : Nat) :
    ((¬ ∃ w ∈ db.waitlist, waitingForKey cid d st et w = true) →
      notify_next_in_queue db cid d st et = (none, db))
    ∧ ((∃ w ∈ db.waitlist, waitingForKey cid d st et w = true) →
      ∃ w ∈ db.waitlist, waitingForKey cid d st et w = true
        ∧ (∀ w' ∈ db.waitlist, waitingForKey cid d st et w' = true →
            w.created_at ≤ w'.created_at)
        ∧ (notify_next_in_queue db cid d st et).1
            = some { w with status := "NOTIFIED", notified_at := some db.now }
        ∧ (notify_next_in_queue db cid d st et).2.waitlist
            = db.waitlist.map (fun x => if x.id == w.id then
                { w with status := "NOTIFIED", notified_at := some db.now } else x)
        ∧ (∀ w' ∈ db.waitlist, w'.id ≠ w.id →
            w' ∈ (notify_next_in_queue db cid d st et).2.waitlist)) := by
  constructor
  · intro hno
    have hfil : db.waitlist.filter (waitingForKey cid d st et) = [] := by
      rw [List.filter_eq_nil_iff]
      intro a ha hcontra
      exact hno ⟨a, ha, hcontra⟩
    simp [notify_next_in_queue, hfil]
  · intro hex
    cases hq : (db.waitlist.filter (waitingForKey cid d st et)).insertionSort
        createdAtLE with
    | nil =>
      obtain ⟨w, hw, hkey⟩ := hex
      have hmem : w ∈ db.waitlist.filter (waitingForKey cid d st et) :=
        List.mem_filter.mpr ⟨hw, hkey⟩
      have := (List.perm_insertionSort createdAtLE
        (db.waitlist.filter (waitingForKey cid d st et))).mem_iff.mpr hmem
      rw [hq] at this
      cases this
    | cons a t =>
      have hhead : ((db.waitlist.filter (waitingForKey cid d st et)).insertionSort
          createdAtLE).head? = some a := by
        rw [hq, List.head?_cons]
      obtain ⟨hafil, hamin⟩ := head_insertionSort_created_at_min _ a hhead
      obtain ⟨hamem, hakey⟩ := List.mem_filter.mp hafil
      refine ⟨a, hamem, hakey, ?_, ?_, ?_, ?_⟩
      · intro w' hw' hkey'
        exact hamin w' (List.mem_filter.mpr ⟨hw', hkey'⟩)
      · simp [notify_next_in_queue, hq]
      · simp [notify_next_in_queue, hq]
      · intro w' hw' hne
        simp only [notify_next_in_queue, hq, List.head?_cons]
        rw [List.mem_map]
        refine ⟨w', hw', ?_⟩
        have : (w'.id == a.id) = false := by
          rw [beq_eq_false_iff_ne]
          exact hne
        rw [this]
        simp

theorem notify_next_spec_witness :
    (∃ w ∈ dbQueue.waitlist, waitingForKey 1 0 9 10 w = true
      ∧ (∀ w' ∈ dbQueue.waitlist, waitingForKey 1 0 9 10 w' = true →
          w.created_at ≤ w'.created_at)
      ∧ (notify_next_in_queue dbQueue 1 0 9 10).1
          = some { w with status := "NOTIFIED", notified_at := some dbQueue.now }
      ∧ (notify_next_in_queue dbQueue 1 0 9 10).2.waitlist
          = dbQueue.waitlist.map (fun x => if x.id == w.id then
              { w with status := "NOTIFIED", notified_at := some dbQueue.now } else x)
      ∧ (∀ w' ∈ dbQueue.waitlist, w'.id ≠ w.id →
          w' ∈ (notify_next_in_queue dbQueue 1 0 9 10).2.waitlist))
    ∧ (notify_next_in_queue dbQueue 1 0 9 10).1
        = some ⟨1, 10, 1, 0, 9, 10, "NOTIFIED", 5, some 100⟩
    ∧ (notify_next_in_queue dbQueue 1 0 9 10).2.waitlist.map
        (fun w => (w.id, w.status)) = [(2, "WAITING"), (1, "NOTIFIED")] :=
  ⟨(notify_next_spec dbQueue 1 0 9 10).2
     ⟨waitA, by simp [dbQueue, emptyDB], by decide⟩,
   by decide, by decide⟩
